import Mathlib

/-!
Verification of the key-scanning and key-filtering core of `regui` (src/regui.py):
the SCAN accumulation loop in `load_keys`, the tree population in
`populate_keys_tree`, and the live search filter in `filter_keys`.
-/

/-- Python-style check that the character list `n` is a leading segment of `h`;
building block for the embedding of Python's substring operator `in`. -/
def pyStartsWith : List Char → List Char → Bool
  | [], _ => true
  | _ :: _, [] => false
  | a :: as, b :: bs => a == b && pyStartsWith as bs

/-- Embedding of Python's substring operator `needle in hay` on character lists:
`needle` occurs contiguously somewhere in `hay`. -/
def pySubstr (needle : List Char) : List Char → Bool
  | [] => pyStartsWith needle []
  | b :: bs => pyStartsWith needle (b :: bs) || pySubstr needle bs

/-- Python's `s.lower()`: character-wise lowercasing of the string, as a character
list. -/
def pyLower (s : String) : List Char :=
  s.data.map Char.toLower

/-- Evaluation of Python's `needle.lower() in hay.lower()` — the match test of
`filter_keys` (regui.py lines 598 and 602-603). -/
def pyIn (needle hay : String) : Bool :=
  pySubstr (pyLower needle) (pyLower hay)

/-- Per-key metadata as returned by the client calls in `populate_keys_tree`
(regui.py lines 532-550): `type(key)`, `ttl(key)`, and the cardinality used by the
kind-specific size call (llen / scard / zcard / hlen). A `none` oracle answer models
the per-key exception branch (line 554): that key is skipped, not inserted. -/
structure KeyInfo where
  kind : String
  ttl : Int
  card : Nat
deriving DecidableEq, Repr

/-- TTL column of the keys tree: `str(ttl) if ttl > 0 else "∞"` (regui.py line 539). -/
def ttl_display (ttl : Int) : String :=
  if ttl > 0 then toString ttl else "∞"

/-- Size column of the keys tree (regui.py lines 542-550): container kinds show their
cardinality, anything else shows the default "1". -/
def size_display (kind : String) (card : Nat) : String :=
  if kind = "list" then toString card
  else if kind = "set" then toString card
  else if kind = "zset" then toString card
  else if kind = "hash" then toString card
  else "1"

/-- One row of the keys tree view: `text=key, values=(key_type, ttl_str, size)`
(regui.py line 552). -/
structure KeyRow where
  key : String
  kind : String
  ttlStr : String
  size : String
deriving DecidableEq, Repr

/-- State of the keys Treeview. `attached` are the rows currently displayed, in
display order (what `get_children` returns); `detached` are rows removed from display
by `Treeview.detach` but still existing in the widget. -/
structure TreeState where
  attached : List KeyRow
  detached : List KeyRow
deriving DecidableEq, Repr

/-- Embedding of `populate_keys_tree` (regui.py lines 527-557): clears the tree, then inserts one
row per key in order, skipping keys whose metadata lookups raise. -/
def populate_keys_tree (meta : String → Option KeyInfo) (keys : List String) : TreeState :=
  { attached := keys.filterMap fun k => (meta k).map fun i =>
      { key := k, kind := i.kind, ttlStr := ttl_display i.ttl,
        size := size_display i.kind i.card }
    detached := [] }

/-- Embedding of `filter_keys` (regui.py lines 596-606): lower-cases the search term, then walks
`get_children()` — only the currently attached items — reattaching each matching item
at the end (preserving relative order) and detaching each non-matching one. Detached
items are not children, so they are never revisited by later filter calls. -/
def filter_keys (term : String) (s : TreeState) : TreeState :=
  { attached := s.attached.filter fun r => pyIn term r.key
    detached := s.detached ++ s.attached.filter fun r => ! pyIn term r.key }

/-- One response of `redis_client.scan`: either a `(next cursor, keys)` pair or a
raised exception carrying a message. -/
inductive ScanResp where
  | ok (nextCursor : Nat) (keys : List String)
  | err (msg : String)
deriving DecidableEq, Repr

/-- Result of the `load_thread` body of `load_keys`: the scan finished and
`populate_keys_tree(all_keys)` is scheduled; or an exception was caught and only an
error status is shown (the accumulated list is dropped); or the scripted source ran
out of responses — a model artifact standing for "the loop is still running". -/
inductive LoadOutcome where
  | populated (keys : List String)
  | errorShown (msg : String)
  | outOfScript (acc : List String)
deriving DecidableEq, Repr

/-- The SCAN loop of `load_keys` (regui.py lines 504-516): starting from cursor 0,
repeatedly call `scan`, extend `all_keys` with the returned batch, and break once the
returned cursor is 0 — the batch that came with cursor 0 is still appended first.
`script` is the sequence of responses the connected source produces for this pattern
and batch size, consumed one per call; any exception aborts the loop at once. -/
def scanLoop : List ScanResp → List String → LoadOutcome
  | [], acc => .outOfScript acc
  | .err m :: _, _ => .errorShown m
  | .ok c ks :: rest, acc =>
    if c = 0 then .populated (acc ++ ks) else scanLoop rest (acc ++ ks)

/-- The item lists of the batches the SCAN loop actually consumes: every `ok` batch up
to and including the first one whose next cursor is 0. -/
def consumedBatches : List ScanResp → List (List String)
  | [] => []
  | .err _ :: _ => []
  | .ok c ks :: rest => if c = 0 then [ks] else ks :: consumedBatches rest

/-- A scripted response that keeps the SCAN loop going: an `ok` batch whose next
cursor is nonzero. -/
def keepsGoing : ScanResp → Bool
  | .ok c _ => c != 0
  | .err _ => false

/-- Effect of `load_thread` on the UI once it finishes (regui.py lines 499-523): on
success the tree is repopulated from the accumulated keys and the status text reports
the count (line 557); on an exception the status text shows the error and the tree is
left exactly as it was — the accumulated keys are not displayed. The `outOfScript`
case reports the in-progress status of line 510. -/
def load_keys_ui (meta : String → Option KeyInfo) (script : List ScanResp)
    (tree : TreeState) : TreeState × String :=
  match scanLoop script [] with
  | .populated keys =>
    (populate_keys_tree meta keys, "Loaded " ++ toString keys.length ++ " keys")
  | .errorShown m => (tree, "Error loading keys: " ++ m)
  | .outOfScript acc => (tree, "Loading keys... (" ++ toString acc.length ++ " found)")

/-- The state `load_keys` consults before starting a scan. The code checks only
`self.redis_client`; `scanThreadRunning` records whether a previously spawned
`load_thread` is still alive — the code keeps no such flag and never reads one. -/
structure AppState where
  connected : Bool
  scanThreadRunning : Bool
deriving DecidableEq, Repr

/-- Embedding of `load_keys` (regui.py lines 490-525): with no client it shows "Please connect to
Redis first" and leaves the tree alone; otherwise it spawns `load_thread`
unconditionally. The returned pair is the tree and status text once the spawned
thread has finished. -/
def load_keys (s : AppState) (meta : String → Option KeyInfo) (script : List ScanResp)
    (tree : TreeState) : TreeState × String :=
  if s.connected then load_keys_ui meta script tree
  else (tree, "Please connect to Redis first")

/-- Metadata oracle for concrete scenarios: every key is a plain string with no
expiry (`ttl` = -1), so each row is `(kind "string", "∞", "1")`. -/
def meta0 : String → Option KeyInfo :=
  fun _ => some { kind := "string", ttl := -1, card := 0 }

/-- Sanity of the embedding of Python's startswith-style check: it holds exactly when
the haystack extends the needle. -/
theorem pyStartsWith_iff (n : List Char) : ∀ h : List Char,
    pyStartsWith n h = true ↔ ∃ t, h = n ++ t := by
  induction n with
  | nil => intro h; simp [pyStartsWith]
  | cons a as ih =>
    intro h
    cases h with
    | nil => simp [pyStartsWith]
    | cons b bs =>
      simp only [pyStartsWith, Bool.and_eq_true, beq_iff_eq, ih, List.cons_append,
        List.cons.injEq]
      constructor
      · rintro ⟨rfl, t, rfl⟩
        exact ⟨t, rfl, rfl⟩
      · rintro ⟨t, rfl, rfl⟩
        exact ⟨rfl, t, rfl⟩

/-- Sanity of the embedding of Python's `in` operator: it holds exactly when the
needle occurs contiguously in the haystack. -/
theorem pySubstr_iff (n : List Char) : ∀ h : List Char,
    pySubstr n h = true ↔ ∃ p t, h = p ++ n ++ t := by
  intro h
  induction h with
  | nil =>
    constructor
    · intro hs
      obtain ⟨t, ht⟩ := (pyStartsWith_iff n []).mp hs
      exact ⟨[], t, by simpa using ht⟩
    · rintro ⟨p, t, ht⟩
      obtain ⟨hp, hn, htl⟩ := by simpa [List.append_eq_nil] using ht.symm
      apply (pyStartsWith_iff n []).mpr
      exact ⟨[], by simp [hn]⟩
  | cons b bs ih =>
    simp only [pySubstr, Bool.or_eq_true, pyStartsWith_iff, ih]
    constructor
    · rintro (⟨t, ht⟩ | ⟨p, t, ht⟩)
      · exact ⟨[], t, by simpa using ht⟩
      · exact ⟨b :: p, t, by simp [ht]⟩
    · rintro ⟨p, t, ht⟩
      cases p with
      | nil => exact Or.inl ⟨t, by simpa using ht⟩
      | cons c p =>
        simp only [List.cons_append, List.cons.injEq] at ht
        exact Or.inr ⟨p, t, ht.2⟩

/-- The empty search term matches every key. -/
theorem pyIn_empty (hay : String) : pyIn "" hay = true := by
  have hnil : pyLower "" = [] := rfl
  rw [pyIn, hnil]
  exact (pySubstr_iff [] (pyLower hay)).mpr ⟨[], pyLower hay, by simp⟩

/-- A row is attached after `filter_keys` exactly when it was attached before and its
key matches the search term. -/
theorem mem_filter_keys_attached (term : String) (s : TreeState) (r : KeyRow) :
    r ∈ (filter_keys term s).attached ↔ r ∈ s.attached ∧ pyIn term r.key = true := by
  simp [filter_keys, List.mem_filter]

/-- When the SCAN loop finishes a full pass, the accumulated list is the starting
accumulator followed by every consumed batch in order. -/
theorem scanLoop_populated (script : List ScanResp) :
    ∀ acc keys, scanLoop script acc = .populated keys →
      keys = acc ++ (consumedBatches script).flatten := by
  induction script with
  | nil =>
    intro acc keys h
    simp [scanLoop] at h
  | cons r rest ih =>
    intro acc keys h
    cases r with
    | err m => simp [scanLoop] at h
    | ok c ks =>
      by_cases hc : c = 0
      · subst hc
        simp [scanLoop] at h
        simp [consumedBatches, ← h]
      · rw [scanLoop, if_neg hc] at h
        rw [ih (acc ++ ks) keys h]
        simp [consumedBatches, if_neg hc, List.append_assoc]

/-- While every scripted response keeps the loop going, an error response is reached
and aborts the loop at once, whatever was accumulated so far. -/
theorem scanLoop_err (pre : List ScanResp) (m : String) (rest : List ScanResp) :
    pre.all keepsGoing = true →
    ∀ acc, scanLoop (pre ++ .err m :: rest) acc = .errorShown m := by
  induction pre with
  | nil => intro _ acc; simp [scanLoop]
  | cons r pre ih =>
    intro hall acc
    simp only [List.all_cons, Bool.and_eq_true] at hall
    cases r with
    | err m' => simp [keepsGoing] at hall
    | ok c ks =>
      have hc : c ≠ 0 := by simpa [keepsGoing] using hall.1
      rw [List.cons_append, scanLoop, if_neg hc]
      exact ih hall.2 (acc ++ ks)

/-- The key column of a freshly populated tree is a subsequence of the scanned keys:
population never reorders, it only skips keys whose metadata lookups raise. -/
theorem populate_sublist (meta : String → Option KeyInfo) (keys : List String) :
    ((populate_keys_tree meta keys).attached.map KeyRow.key).Sublist keys := by
  induction keys with
  | nil => simp [populate_keys_tree]
  | cons k ks ih =>
    simp only [populate_keys_tree, List.filterMap_cons] at ih ⊢
    cases h : meta k with
    | none => exact ih.cons k
    | some i => simpa using ih.cons₂ k

/-- C1: failing input for the claim that the empty predicate restores all accumulated
items. After loading `["a", "ab", "b", "abc"]`, filtering with `"ab"` and then with
the empty term leaves only `["ab", "abc"]` attached: `filter_keys` walks only the
currently attached children, so the items detached by the first filter are never
reattached. -/
theorem empty_predicate_does_not_restore_hidden :
    ((populate_keys_tree meta0 ["a", "ab", "b", "abc"]).attached.map KeyRow.key
      = ["a", "ab", "b", "abc"])
    ∧ ((filter_keys ""
          (filter_keys "ab" (populate_keys_tree meta0 ["a", "ab", "b", "abc"]))).attached.map
        KeyRow.key = ["ab", "abc"]) := by decide

/-- C2 counterexample: when the source delivers `(5, ["a", "ab", "b"])` and then
raises `SourceUnavailable`, `load_keys` only reports the error; the three accumulated
keys are discarded — the tree still shows its pre-scan content `["old"]` and none of
the accumulated keys are visible to the caller. -/
theorem error_discards_accumulated_keys :
    (load_keys_ui meta0 [ScanResp.ok 5 ["a", "ab", "b"], ScanResp.err "SourceUnavailable"]
        (populate_keys_tree meta0 ["old"])
      = (populate_keys_tree meta0 ["old"], "Error loading keys: SourceUnavailable"))
    ∧ "a" ∉ ((load_keys_ui meta0
          [ScanResp.ok 5 ["a", "ab", "b"], ScanResp.err "SourceUnavailable"]
          (populate_keys_tree meta0 ["old"])).1.attached.map KeyRow.key) := by decide

/-- C2 amended: a source error on any batch aborts the loop immediately and shows a
failure status, but the partially accumulated items are discarded — the keys tree is
left exactly as it was before the scan, not updated with the partial results. -/
theorem source_error_aborts_tree_unchanged (pre : List ScanResp) (m : String)
    (rest : List ScanResp) (meta : String → Option KeyInfo) (tree : TreeState)
    (hpre : pre.all keepsGoing = true) :
    load_keys_ui meta (pre ++ .err m :: rest) tree
      = (tree, "Error loading keys: " ++ m) := by
  have h := scanLoop_err pre m rest hpre []
  simp [load_keys_ui, h]

/-- Witness for `source_error_aborts_tree_unchanged` at the spec's scenario: one good
batch, then `SourceUnavailable`. -/
theorem source_error_aborts_tree_unchanged_witness :
    ([ScanResp.ok 5 ["a", "ab", "b"]].all keepsGoing = true)
    ∧ load_keys_ui meta0
        ([ScanResp.ok 5 ["a", "ab", "b"]] ++ ScanResp.err "SourceUnavailable" :: [])
        (populate_keys_tree meta0 ["old"])
      = (populate_keys_tree meta0 ["old"], "Error loading keys: " ++ "SourceUnavailable") :=
  ⟨by decide,
   source_error_aborts_tree_unchanged [ScanResp.ok 5 ["a", "ab", "b"]] "SourceUnavailable"
     [] meta0 (populate_keys_tree meta0 ["old"]) (by decide)⟩

/-- C3 counterexample: with a client connected and a previous scan thread still
running, a second `load_keys` is not rejected: the new scan runs to completion and
replaces the tree contents, so the prior state is not left unchanged. -/
theorem second_start_not_rejected :
    ((load_keys { connected := true, scanThreadRunning := true } meta0
        [ScanResp.ok 0 ["x"]] (populate_keys_tree meta0 ["old"])).2 = "Loaded 1 keys")
    ∧ (load_keys { connected := true, scanThreadRunning := true } meta0
        [ScanResp.ok 0 ["x"]] (populate_keys_tree meta0 ["old"])).1
      ≠ populate_keys_tree meta0 ["old"] := by decide

/-- C3 amended: `load_keys` guards only on connectivity and never consults whether a
prior scan thread is still alive — when connected it starts a new scan
unconditionally (so concurrent scans are possible), and when not connected it shows
"Please connect to Redis first" and leaves the tree untouched. -/
theorem load_keys_ignores_running (r : Bool) (meta : String → Option KeyInfo)
    (script : List ScanResp) (tree : TreeState) :
    (load_keys { connected := true, scanThreadRunning := r } meta script tree
      = load_keys_ui meta script tree)
    ∧ load_keys { connected := false, scanThreadRunning := r } meta script tree
      = (tree, "Please connect to Redis first") :=
  ⟨rfl, rfl⟩

/-- C4: the spec scenario. For the script `[(5, ["a", "ab", "b"]), (0, ["abc"])]` the
loop appends both batches in order — the batch arriving with cursor 0 included — and
finishes with `["a", "ab", "b", "abc"]` populated and the completion status shown. -/
theorem scan_scenario_completed :
    (scanLoop [ScanResp.ok 5 ["a", "ab", "b"], ScanResp.ok 0 ["abc"]] []
      = LoadOutcome.populated ["a", "ab", "b", "abc"])
    ∧ (load_keys_ui meta0 [ScanResp.ok 5 ["a", "ab", "b"], ScanResp.ok 0 ["abc"]]
        { attached := [], detached := [] }).2 = "Loaded 4 keys" := by decide

/-- C5: a completed scan accumulates exactly the concatenation of the consumed
batches, so its length is the sum of the per-batch counts — nothing is dropped and
duplicates across batches are kept. -/
theorem completed_scan_keeps_every_batch (script : List ScanResp) (keys : List String)
    (h : scanLoop script [] = .populated keys) :
    keys = (consumedBatches script).flatten
    ∧ keys.length = ((consumedBatches script).map List.length).sum := by
  have hk : keys = (consumedBatches script).flatten := by
    simpa using scanLoop_populated script [] keys h
  exact ⟨hk, by rw [hk, List.length_flatten]⟩

/-- Witness for `completed_scan_keeps_every_batch` on a script where the key "b"
recurs across batches: the duplicate is retained and the count is the sum 2 + 2. -/
theorem completed_scan_keeps_every_batch_witness :
    (scanLoop [ScanResp.ok 3 ["a", "b"], ScanResp.ok 0 ["b", "c"]] []
      = LoadOutcome.populated ["a", "b", "b", "c"])
    ∧ ((["a", "b", "b", "c"]
        = (consumedBatches [ScanResp.ok 3 ["a", "b"], ScanResp.ok 0 ["b", "c"]]).flatten)
      ∧ (["a", "b", "b", "c"] : List String).length
        = ((consumedBatches [ScanResp.ok 3 ["a", "b"], ScanResp.ok 0 ["b", "c"]]).map
            List.length).sum) :=
  ⟨rfl, completed_scan_keeps_every_batch [ScanResp.ok 3 ["a", "b"], ScanResp.ok 0 ["b", "c"]]
    ["a", "b", "b", "c"] rfl⟩

/-- C6: the visible rows keep the relative order of the scanned key sequence — after
populating from any scan result and filtering with any term, the visible key column
is a subsequence of the scanned keys, never re-sorted; and on the spec scenario,
filtering `["a", "ab", "b", "abc"]` with `"ab"` shows exactly `["ab", "abc"]` in that
order. -/
theorem visible_order_preserved :
    (∀ (meta : String → Option KeyInfo) (keys : List String) (term : String),
      ((filter_keys term (populate_keys_tree meta keys)).attached.map KeyRow.key).Sublist
        keys)
    ∧ (filter_keys "ab" (populate_keys_tree meta0 ["a", "ab", "b", "abc"])).attached.map
        KeyRow.key = ["ab", "abc"] := by
  constructor
  · intro meta keys term
    have h1 : (filter_keys term (populate_keys_tree meta keys)).attached.Sublist
        (populate_keys_tree meta keys).attached := List.filter_sublist _
    exact (h1.map KeyRow.key).trans (populate_sublist meta keys)
  · decide

/-- C7: filtering is idempotent — applying `filter_keys` twice with the same term
leaves the same rows visible as applying it once, for every term and tree state. -/
theorem filter_idempotent (term : String) (s : TreeState) :
    (filter_keys term (filter_keys term s)).attached = (filter_keys term s).attached := by
  simp [filter_keys, List.filter_filter]

/-- C9: hiding is permanent between loads — a row not currently attached stays
unattached under any further sequence of filter applications (broader or empty terms
included), because `filter_keys` only walks the attached children. -/
theorem hidden_stays_hidden (s : TreeState) (ts : List String) (r : KeyRow)
    (h : r ∉ s.attached) :
    r ∉ (ts.foldl (fun st t => filter_keys t st) s).attached := by
  induction ts generalizing s with
  | nil => simpa using h
  | cons t ts ih =>
    simp only [List.foldl_cons]
    apply ih
    intro hmem
    exact h ((mem_filter_keys_attached t s r).mp hmem).1

/-- Witness for `hidden_stays_hidden`: the row for "a", hidden by filtering with
"ab", stays hidden even after a later filter with the empty term. -/
theorem hidden_stays_hidden_witness :
    (({ key := "a", kind := "string", ttlStr := "∞", size := "1" } : KeyRow) ∉
      (filter_keys "ab" (populate_keys_tree meta0 ["a", "ab"])).attached)
    ∧ ({ key := "a", kind := "string", ttlStr := "∞", size := "1" } : KeyRow) ∉
        ([""].foldl (fun st t => filter_keys t st)
          (filter_keys "ab" (populate_keys_tree meta0 ["a", "ab"]))).attached :=
  ⟨by decide,
   hidden_stays_hidden (filter_keys "ab" (populate_keys_tree meta0 ["a", "ab"])) [""]
     { key := "a", kind := "string", ttlStr := "∞", size := "1" } (by decide)⟩

/-- C10: the TTL column shows the numeric TTL exactly when it is strictly positive
and the no-expiry symbol for every TTL ≤ 0 — in particular the backend's distinct
answers -1 (no expiry) and -2 (key gone) are both displayed as "∞". -/
theorem ttl_display_conflates_nonpositive (t : Int) :
    (0 < t → ttl_display t = toString t)
    ∧ (t ≤ 0 → ttl_display t = "∞")
    ∧ ttl_display (-1) = "∞" ∧ ttl_display (-2) = "∞" := by
  refine ⟨fun h => ?_, fun h => ?_, by decide, by decide⟩
  · simp [ttl_display, h]
  · simp [ttl_display, not_lt.mpr h]

/-- Witness for `ttl_display_conflates_nonpositive` at TTL 7 and TTL -2. -/
theorem ttl_display_conflates_nonpositive_witness :
    ((0 : Int) < 7 ∧ ttl_display 7 = toString (7 : Int))
    ∧ ((-2 : Int) ≤ 0 ∧ ttl_display (-2) = "∞") :=
  ⟨⟨by decide, (ttl_display_conflates_nonpositive 7).1 (by decide)⟩,
   ⟨by decide, (ttl_display_conflates_nonpositive (-2)).2.1 (by decide)⟩⟩

